import Mathlib

/-!
Shallow embedding of the `slog` Go package (structured logging facade for
Google Cloud Logging) and proofs about it.

The embedding translates `log.go` into Lean:
* `Severity` is the Go `uint32`-based enumeration, embedded as `Nat`
  (the code performs no arithmetic on it, only comparison and indexing);
* the process-wide mutable globals (`state`, `projectID`, `severity`) become
  an explicit configuration record `Cfg` threaded through the functions;
* the output sink (`os.Stdout` behind `io.Writer`) becomes a function from
  the written payload to a Go-style result (`Except String Unit`), and every
  emitting function additionally returns the list of payloads passed to the
  sink, so that the number of sink invocations is observable;
* `runtime.Caller` based source-location resolution is an external runtime
  capability, so the resolved `Option SourceLocation` is a parameter;
* `debug.Stack()` is likewise a runtime capability, so the captured stack
  text of the `ReportError` family is passed as a parameter;
* the OpenTelemetry span is embedded as a record exposing exactly the narrow
  read interface the code uses: `IsRecording`, and a span context with a
  16-byte trace identifier and an 8-byte span identifier whose validity
  checks are comparisons against zero and whose `String()` methods render
  fixed-width lowercase hex;
* `encoding/json` marshalling of the `Entry` struct is embedded field by
  field following the struct tags (order as declared, `omitempty` on the
  optional fields) and the escaping rules of the Go encoder with HTML
  escaping on (its default for `json.NewEncoder`).
-/

namespace Slog

/-- Go: `type Severity uint32`. No arithmetic is performed on severities,
only ordering comparisons and slice indexing, so `Nat` is a faithful carrier. -/
abbrev Severity := Nat

def SeverityDefault : Severity := 0

def SeverityDebug : Severity := 1

def SeverityInfo : Severity := 2

def SeverityNotice : Severity := 3

def SeverityWarning : Severity := 4

def SeverityError : Severity := 5

def SeverityCritical : Severity := 6

def SeverityAlert : Severity := 7

def SeverityEmergency : Severity := 8

/-- Go: `var severities = []string{...}`. -/
def severities : List String :=
  ["DEFAULT", "DEBUG", "INFO", "NOTICE", "WARNING", "ERROR", "CRITICAL", "ALERT", "EMERGENCY"]

/-- Go: `func (s Severity) String() string { return severities[int(s)] }`.
Indexing a Go slice out of range panics, which the embedding renders as
`none`; for ordinals 0 through 8 the result is `some` of the name. -/
def stringImpl (s : Severity) : Option String := severities.get? s

/-- The name used when building entries. Every call site in the package
passes one of the nine defined constants, where this agrees with
`stringImpl`. -/
def sevName (s : Severity) : String := (stringImpl s).getD ""

/-- `strings.ToUpper` restricted to its ASCII behavior, which is all the
nine severity names exercise. -/
def toUpperGo (s : String) : String := ⟨s.data.map Char.toUpper⟩

/-- Go: `func toSeverity(lvl string) Severity`: upper-case the input
(`strings.ToUpper`; the nine names are ASCII), scan `severities` in order
returning the index of the first match, `SeverityDefault` when none match. -/
def toSeverity (lvl : String) : Severity :=
  let u := toUpperGo lvl
  match severities.findIdx? (fun s => s == u) with
  | some idx => idx
  | none => SeverityDefault

/-- Go: `stateUninitialized uint32 = 0`. -/
def stateUninitialized : Nat := 0

/-- Go: `stateInitialized uint32 = 1`. -/
def stateInitialized : Nat := 1

/-- The package-level mutable globals of `log.go` (`state`, `projectID`,
`severity`), made explicit. -/
structure Cfg where
  state : Nat
  projectID : String
  severity : Severity
  deriving DecidableEq, Repr

/-- The initial values of the globals: `state = stateUninitialized`,
`projectID` has the zero value `""`, and `severity Severity = SeverityDebug`. -/
def initialConfig : Cfg :=
  { state := stateUninitialized, projectID := "", severity := SeverityDebug }

/-- Go: `type Option func()`. The two constructors provided by the package
are `WithSeverity` (store the given severity) and `WithLogLevel` (store the
severity parsed from the given name). Both mutate only the `severity`
global. -/
inductive Opt where
  | withSeverity (s : Severity)
  | withLogLevel (lvl : String)
  deriving DecidableEq, Repr

def applyOpt (c : Cfg) (o : Opt) : Cfg :=
  match o with
  | .withSeverity s => { c with severity := s }
  | .withLogLevel lvl => { c with severity := toSeverity lvl }

/-- Go: `var errInitialized = errors.New("slog is already initialized")`. -/
inductive SlogError where
  | errInitialized
  deriving DecidableEq, Repr

/-- Go: `func Setup(traceProjectID string, opts ...Option) error`.
Under the mutex (sequentialised here), if already initialized return
`errInitialized` leaving the globals unchanged; otherwise store the project
id, apply the options in order, and mark the state initialized. -/
def Setup (traceProjectID : String) (opts : List Opt) (c : Cfg) :
    Except SlogError Unit × Cfg :=
  if c.state ≠ stateUninitialized then
    (.error .errInitialized, c)
  else
    let c1 := { c with projectID := traceProjectID }
    let c2 := opts.foldl applyOpt c1
    (.ok (), { c2 with state := stateInitialized })

/-- Go: `func Enabled(s Severity) bool { return s >= severity }`, reading the
`severity` global (the threshold). -/
def Enabled (c : Cfg) (s : Severity) : Bool := s ≥ c.severity

/-! ### JSON encoding (Go `encoding/json` on the `Entry` struct) -/

/-- The lookup table `hex = "0123456789abcdef"` of `encoding/json` and the
digit table of `strconv`. -/
def hexDigits : List Char := "0123456789abcdef".data

def hexChar (k : Nat) : Char := hexDigits.getD k '0'

/-- Decimal digits of a positive natural, most significant first
(`strconv.AppendInt` digit loop). Structural recursion on a fuel argument
(the value itself bounds the number of divisions) keeps the definition
kernel-reducible. -/
def natStrAux : Nat → Nat → List Char → List Char
  | 0, _, acc => acc
  | fuel + 1, n, acc =>
    if n = 0 then acc
    else natStrAux fuel (n / 10) (hexChar (n % 10) :: acc)

def natStr (n : Nat) : String :=
  if n = 0 then "0" else ⟨natStrAux n n []⟩

/-- Rendering of an `int64` in decimal, as `encoding/json` does for the
`line` field via `strconv.AppendInt`. -/
def intStr (i : Int) : String :=
  if i < 0 then "-" ++ natStr i.natAbs else natStr i.toNat

/-- Escaping of one character inside a JSON string, following
`encoding/json` with HTML escaping enabled (the default of
`json.NewEncoder` and `json.Marshal`): backslash, quote, newline, carriage
return and tab get two-character escapes; `<`, `>`, `&` and the remaining
control characters get `\u00xx` escapes; U+2028 and U+2029 get six-character
`\u20xx` escapes; everything else is passed through. -/
def escapeChar (c : Char) : String :=
  if c = '\\' then "\\\\"
  else if c = '\"' then "\\\""
  else if c = '\n' then "\\n"
  else if c = '\r' then "\\r"
  else if c = '\t' then "\\t"
  else if c = '<' then "\\u003c"
  else if c = '>' then "\\u003e"
  else if c = '&' then "\\u0026"
  else if c.toNat < 0x20 then
    "\\u00" ++ ⟨[hexChar (c.toNat / 16), hexChar (c.toNat % 16)]⟩
  else if c.toNat = 0x2028 then "\\u2028"
  else if c.toNat = 0x2029 then "\\u2029"
  else String.singleton c

def escapeChars : List Char → String
  | [] => ""
  | c :: cs => escapeChar c ++ escapeChars cs

def escapeString (s : String) : String := escapeChars s.data

/-- A JSON string literal: quote, escaped contents, quote. -/
def quoteGo (s : String) : String := "\"" ++ escapeString s ++ "\""

/-- Comma separation of the rendered fields of a JSON object. -/
def commaSep : List String → String
  | [] => ""
  | [x] => x
  | x :: xs => x ++ "," ++ commaSep xs

/-- A JSON object from already-rendered `(name, value)` fields, in order.
The field names of `Entry` and `SourceLocation` contain no character the
encoder escapes, so they are emitted verbatim. -/
def jsonObj (fields : List (String × String)) : String :=
  "\x7b" ++ commaSep (fields.map (fun f => "\"" ++ f.1 ++ "\":" ++ f.2)) ++ "\x7d"

/-- Go struct `SourceLocation` (file, 1-based line, function), all fields
tagged `omitempty`. -/
structure SourceLocation where
  file : String
  line : Int
  function : String
  deriving DecidableEq, Repr

/-- Go struct `Entry`: `severity`, optional `logging.googleapis.com/trace`,
optional `logging.googleapis.com/spanId`, optional
`logging.googleapis.com/sourceLocation`, `message`, in declaration order. -/
structure Entry where
  severity : String
  trace : String
  spanID : String
  sourceLocation : Option SourceLocation
  message : String
  deriving DecidableEq, Repr

/-- Marshalling of `SourceLocation` per its struct tags: each field is
`omitempty`, so `file` and `function` are dropped when empty and `line`
when zero. -/
def marshalSourceLocation (l : SourceLocation) : String :=
  jsonObj (
    (if l.file = "" then [] else [("file", quoteGo l.file)])
    ++ (if l.line = 0 then [] else [("line", intStr l.line)])
    ++ (if l.function = "" then [] else [("function", quoteGo l.function)]))

/-- Marshalling of `Entry` per its struct tags: fields in declaration
order; `trace`, `spanId` and `sourceLocation` are `omitempty` (dropped for
the empty string and the nil pointer respectively); `severity` and
`message` are always emitted. -/
def marshalEntry (e : Entry) : String :=
  jsonObj (
    [("severity", quoteGo e.severity)]
    ++ (if e.trace = "" then [] else [("logging.googleapis.com/trace", quoteGo e.trace)])
    ++ (if e.spanID = "" then [] else [("logging.googleapis.com/spanId", quoteGo e.spanID)])
    ++ (match e.sourceLocation with
        | none => []
        | some l => [("logging.googleapis.com/sourceLocation", marshalSourceLocation l)])
    ++ [("message", quoteGo e.message)])

/-- `json.Encoder.Encode` marshals the value and appends one newline,
handing the whole buffer to the writer in a single `Write` call. -/
def encodeEntry (e : Entry) : String := marshalEntry e ++ "\n"

/-! ### Tracing collaborator (OpenTelemetry span read interface) -/

/-- Hex digits of a positive natural, most significant first. Structural
recursion on a fuel argument keeps the definition kernel-reducible. -/
def natHexAux : Nat → Nat → List Char → List Char
  | 0, _, acc => acc
  | fuel + 1, n, acc =>
    if n = 0 then acc
    else natHexAux fuel (n / 16) (hexChar (n % 16) :: acc)

def natHexChars (n : Nat) : List Char := natHexAux n n []

/-- Fixed-width lowercase hex with leading zeros, as `hex.EncodeToString`
renders a byte array. -/
def hexPadded (w n : Nat) : String :=
  ⟨List.replicate (w - (natHexChars n).length) '0' ++ natHexChars n⟩

/-- The span context the code reads: `TraceID` is a 16-byte array and
`SpanID` an 8-byte array, embedded as their numeric values. -/
structure SpanContext where
  traceID : Nat
  spanID : Nat
  deriving DecidableEq, Repr

/-- `SpanContext.HasTraceID`: the trace identifier is non-zero. -/
def SpanContext.hasTraceID (c : SpanContext) : Bool := c.traceID ≠ 0

/-- `SpanContext.HasSpanID`: the span identifier is non-zero. -/
def SpanContext.hasSpanID (c : SpanContext) : Bool := c.spanID ≠ 0

/-- `TraceID.String()`: 32 lowercase hex characters. -/
def traceIDString (n : Nat) : String := hexPadded 32 n

/-- `SpanID.String()`: 16 lowercase hex characters. -/
def spanIDString (n : Nat) : String := hexPadded 16 n

/-- The narrow read interface of `trace.Span` the code uses: `IsRecording`
and `SpanContext`. -/
structure Span where
  recording : Bool
  ctx : SpanContext
  deriving DecidableEq, Repr

/-- The no-op span OpenTelemetry returns when a context carries no span:
not recording, zero-valued span context. -/
def noopSpan : Span := { recording := false, ctx := { traceID := 0, spanID := 0 } }

/-- A `context.Context`, of which the code only queries the active span. -/
structure Context where
  span : Option Span
  deriving DecidableEq, Repr

/-- `trace.SpanFromContext`: the active span, or the no-op span. -/
def spanFromContext (ctx : Context) : Span := ctx.span.getD noopSpan

/-! ### Gate-and-emit pipeline -/

/-- The sink (`io.Writer`): maps the payload of one `Write` call to a
Go-style result. -/
abbrev GoWriter := String → Except String Unit

/-- Go: `func write(w io.Writer, entry Entry) error`: encode and hand the
buffer (JSON line plus newline) to the writer, returning its error. -/
def write (w : GoWriter) (entry : Entry) : Except String Unit := w (encodeEntry entry)

/-- The `Entry` literal built by the Go `log` function: severity name,
source location and message, no trace correlation. -/
def plainEntry (s : Severity) (loc : Option SourceLocation) (msg : String) : Entry :=
  { severity := sevName s, trace := "", spanID := "", sourceLocation := loc, message := msg }

/-- Go: `func log(s Severity, msg string) error`. The resolved source
location is a parameter (it comes from `runtime.Caller`). Besides the
returned error, the embedding records the payload of every sink invocation. -/
def log (w : GoWriter) (s : Severity) (loc : Option SourceLocation) (msg : String) :
    Except String Unit × List String :=
  let entry : Entry := plainEntry s loc msg
  (write w entry, [encodeEntry entry])

/-- The `Entry` built by `logWithSpan`: when the span is recording and its
context has both identifiers, the trace resource name
`projects/{projectID}/traces/{traceIDHex}` and the span id hex are filled
in; otherwise both stay empty. -/
def logWithSpanEntry (c : Cfg) (s : Severity) (span : Span) (loc : Option SourceLocation)
    (msg : String) : Entry :=
  if span.recording && span.ctx.hasTraceID && span.ctx.hasSpanID then
    { severity := sevName s,
      trace := "projects/" ++ c.projectID ++ "/traces/" ++ traceIDString span.ctx.traceID,
      spanID := spanIDString span.ctx.spanID,
      sourceLocation := loc,
      message := msg }
  else
    { severity := sevName s, trace := "", spanID := "", sourceLocation := loc, message := msg }

/-- Go: `func logWithSpan(s Severity, span trace.Span, msg string) error`. -/
def logWithSpan (c : Cfg) (w : GoWriter) (s : Severity) (span : Span)
    (loc : Option SourceLocation) (msg : String) : Except String Unit × List String :=
  let entry := logWithSpanEntry c s span loc msg
  (write w entry, [encodeEntry entry])

/-- Go: `func Debug(msg string) (err error)`. -/
def Debug (c : Cfg) (w : GoWriter) (loc : Option SourceLocation) (msg : String) :
    Except String Unit × List String :=
  if Enabled c SeverityDebug then log w SeverityDebug loc msg else (.ok (), [])

/-- Go: `func Info(msg string) (err error)`. -/
def Info (c : Cfg) (w : GoWriter) (loc : Option SourceLocation) (msg : String) :
    Except String Unit × List String :=
  if Enabled c SeverityInfo then log w SeverityInfo loc msg else (.ok (), [])

/-- Go: `func Warn(msg string) (err error)`. -/
def Warn (c : Cfg) (w : GoWriter) (loc : Option SourceLocation) (msg : String) :
    Except String Unit × List String :=
  if Enabled c SeverityWarning then log w SeverityWarning loc msg else (.ok (), [])

/-- Go: `func Error(msg string) (err error)`. -/
def Error (c : Cfg) (w : GoWriter) (loc : Option SourceLocation) (msg : String) :
    Except String Unit × List String :=
  if Enabled c SeverityError then log w SeverityError loc msg else (.ok (), [])

/-- Go: `func ReportError(msg string) (err error)`: the message gets the
captured stack (`debug.Stack()`, a parameter here) appended after a
newline, rendered by `fmt.Sprintf` before the entry is built. -/
def ReportError (c : Cfg) (w : GoWriter) (loc : Option SourceLocation) (msg stack : String) :
    Except String Unit × List String :=
  if Enabled c SeverityError then log w SeverityError loc (msg ++ "\n" ++ stack)
  else (.ok (), [])

/-- Go: `func DebugWithSpan(span trace.Span, msg string) (err error)`. -/
def DebugWithSpan (c : Cfg) (w : GoWriter) (span : Span) (loc : Option SourceLocation)
    (msg : String) : Except String Unit × List String :=
  if Enabled c SeverityDebug then logWithSpan c w SeverityDebug span loc msg else (.ok (), [])

/-- Go: `func InfoWithSpan(span trace.Span, msg string) (err error)`. -/
def InfoWithSpan (c : Cfg) (w : GoWriter) (span : Span) (loc : Option SourceLocation)
    (msg : String) : Except String Unit × List String :=
  if Enabled c SeverityInfo then logWithSpan c w SeverityInfo span loc msg else (.ok (), [])

/-- Go: `func WarnWithSpan(span trace.Span, msg string) (err error)`. -/
def WarnWithSpan (c : Cfg) (w : GoWriter) (span : Span) (loc : Option SourceLocation)
    (msg : String) : Except String Unit × List String :=
  if Enabled c SeverityWarning then logWithSpan c w SeverityWarning span loc msg else (.ok (), [])

/-- Go: `func ErrorWithSpan(span trace.Span, msg string) (err error)`. -/
def ErrorWithSpan (c : Cfg) (w : GoWriter) (span : Span) (loc : Option SourceLocation)
    (msg : String) : Except String Unit × List String :=
  if Enabled c SeverityError then logWithSpan c w SeverityError span loc msg else (.ok (), [])

/-- Go: `func ReportErrorWithSpan(span trace.Span, msg string) (err error)`. -/
def ReportErrorWithSpan (c : Cfg) (w : GoWriter) (span : Span) (loc : Option SourceLocation)
    (msg stack : String) : Except String Unit × List String :=
  if Enabled c SeverityError then logWithSpan c w SeverityError span loc (msg ++ "\n" ++ stack)
  else (.ok (), [])

/-- Go: `func DebugWithCtx(ctx context.Context, msg string) (err error)`. -/
def DebugWithCtx (c : Cfg) (w : GoWriter) (ctx : Context) (loc : Option SourceLocation)
    (msg : String) : Except String Unit × List String :=
  if Enabled c SeverityDebug then logWithSpan c w SeverityDebug (spanFromContext ctx) loc msg
  else (.ok (), [])

/-- Go: `func InfoWithCtx(ctx context.Context, msg string) (err error)`. -/
def InfoWithCtx (c : Cfg) (w : GoWriter) (ctx : Context) (loc : Option SourceLocation)
    (msg : String) : Except String Unit × List String :=
  if Enabled c SeverityInfo then logWithSpan c w SeverityInfo (spanFromContext ctx) loc msg
  else (.ok (), [])

/-- Go: `func WarnWithCtx(ctx context.Context, msg string) (err error)`. -/
def WarnWithCtx (c : Cfg) (w : GoWriter) (ctx : Context) (loc : Option SourceLocation)
    (msg : String) : Except String Unit × List String :=
  if Enabled c SeverityWarning then logWithSpan c w SeverityWarning (spanFromContext ctx) loc msg
  else (.ok (), [])

/-- Go: `func ErrorWithCtx(ctx context.Context, msg string) (err error)`. -/
def ErrorWithCtx (c : Cfg) (w : GoWriter) (ctx : Context) (loc : Option SourceLocation)
    (msg : String) : Except String Unit × List String :=
  if Enabled c SeverityError then logWithSpan c w SeverityError (spanFromContext ctx) loc msg
  else (.ok (), [])

/-- Go: `func ReportErrorWithCtx(ctx context.Context, msg string) (err error)`. -/
def ReportErrorWithCtx (c : Cfg) (w : GoWriter) (ctx : Context) (loc : Option SourceLocation)
    (msg stack : String) : Except String Unit × List String :=
  if Enabled c SeverityError then
    logWithSpan c w SeverityError (spanFromContext ctx) loc (msg ++ "\n" ++ stack)
  else (.ok (), [])

/-! ### Helper definitions for the proofs -/

/-- A sink that accepts every write. -/
def okWriter : GoWriter := fun _ => .ok ()

/-- A sink that rejects every write. -/
def failWriter : GoWriter := fun _ => .error "sink closed"

/-- The string contains no newline byte. -/
def noNL (s : String) : Prop := ∀ c ∈ s.data, c ≠ '\n'

instance : DecidablePred noNL := fun s =>
  inferInstanceAs (Decidable (∀ c ∈ s.data, c ≠ '\n'))

/-- Neither option constructor touches the `projectID` global. -/
theorem foldl_applyOpt_projectID (opts : List Opt) (c : Cfg) :
    (opts.foldl applyOpt c).projectID = c.projectID := by
  induction opts generalizing c with
  | nil => rfl
  | cons o os ih => cases o <;> simp [List.foldl, applyOpt, ih]

/-! ### Claims -/

/-- C1: calling `Setup` twice in sequence from an uninitialized state, the
first call returns success (and stores the given reporting id), the second
returns the already-initialized error, and the configuration after the
second (rejected) call is exactly the configuration the first call
established. -/
theorem setup_twice_second_rejected_no_mutation (c0 : Cfg) (pid1 pid2 : String)
    (opts1 opts2 : List Opt) (h : c0.state = stateUninitialized) :
    (Setup pid1 opts1 c0).1 = .ok () ∧
    (Setup pid1 opts1 c0).2.projectID = pid1 ∧
    (Setup pid2 opts2 (Setup pid1 opts1 c0).2).1 = .error .errInitialized ∧
    (Setup pid2 opts2 (Setup pid1 opts1 c0).2).2 = (Setup pid1 opts1 c0).2 := by
  refine ⟨?_, ?_, ?_, ?_⟩ <;>
    simp [Setup, h, foldl_applyOpt_projectID, stateInitialized, stateUninitialized]

/-- Witness for C1 at a concrete input. -/
theorem setup_twice_second_rejected_no_mutation_witness :
    initialConfig.state = stateUninitialized ∧
    ((Setup "proj-a" [Opt.withSeverity SeverityWarning] initialConfig).1 = .ok () ∧
     (Setup "proj-a" [Opt.withSeverity SeverityWarning] initialConfig).2.projectID = "proj-a" ∧
     (Setup "proj-b" []
        (Setup "proj-a" [Opt.withSeverity SeverityWarning] initialConfig).2).1 =
       .error .errInitialized ∧
     (Setup "proj-b" []
        (Setup "proj-a" [Opt.withSeverity SeverityWarning] initialConfig).2).2 =
       (Setup "proj-a" [Opt.withSeverity SeverityWarning] initialConfig).2) :=
  ⟨rfl, setup_twice_second_rejected_no_mutation initialConfig "proj-a" "proj-b"
    [Opt.withSeverity SeverityWarning] [] rfl⟩

/-- C2: for every pair of severities among the nine defined levels,
`Enabled a` under threshold `b` returns exactly `a ≥ b` in ordinal order,
for any state flag and project id; the second conjunct checks all 81
combinations by evaluation. -/
theorem enabled_iff_ordinal_ge :
    (∀ (a b : Fin 9) (u : Nat) (p : String),
      Enabled { state := u, projectID := p, severity := b.val } a.val =
        decide (a.val ≥ b.val)) ∧
    ((List.range 9).all fun a => (List.range 9).all fun b =>
      Enabled { state := 0, projectID := "", severity := b } a == decide (a ≥ b)) = true := by
  exact ⟨fun a b u p => rfl, by decide⟩

/-- C5: parsing is a left inverse of string rendering on the nine defined
severities, is case-insensitive, and maps unmatched names to
`SeverityDefault`: for every string whose upper-cased form equals none of
the nine names (so the case-insensitive match fails for all of them, as
for `bogus`), parsing returns `SeverityDefault` without failing. -/
theorem parse_left_inverse_of_string :
    (∀ s : Fin 9, (stringImpl s.val).map toSeverity = some s.val) ∧
    toSeverity "info" = toSeverity "INFO" ∧
    toSeverity "bogus" = SeverityDefault ∧
    (∀ lvl : String, toUpperGo lvl ∉ severities → toSeverity lvl = SeverityDefault) := by
  refine ⟨by decide, by decide, by decide, fun lvl h => ?_⟩
  have hnone : severities.findIdx? (fun s => s == toUpperGo lvl) = none := by
    rw [List.findIdx?_eq_none_iff]
    intro x hx
    exact beq_eq_false_iff_ne.mpr (fun hEq => h (hEq ▸ hx))
  simp only [toSeverity, hnone]

/-- Witness for C5 at the concrete unmatched input `bogus`. -/
theorem parse_left_inverse_of_string_witness :
    toUpperGo "bogus" ∉ severities ∧ toSeverity "bogus" = SeverityDefault :=
  ⟨by decide, parse_left_inverse_of_string.2.2.2 "bogus" (by decide)⟩

/-- C9 counterexample: the Go `Severity` carrier is `uint32`, and
`Severity.String` indexes `severities` with the raw value, so at the
severity value 9 (a legal value of the type) the lookup is out of range:
the Go code panics instead of returning a string, rendered here as `none`. -/
theorem string_not_total_on_carrier : stringImpl 9 = none := by decide

/-- C9 amended: on the ordinals 0 through 8, `Severity.String` is defined,
injective, and exhaustive over the nine names; it is not total on the full
`uint32` carrier (see the counterexample at 9, where the Go code panics). -/
theorem string_injective_exhaustive_0_8 :
    (∀ s : Fin 9, (stringImpl s.val).isSome = true) ∧
    (∀ s t : Fin 9, stringImpl s.val = stringImpl t.val → s = t) ∧
    (∀ nm ∈ severities, ∃ s : Fin 9, stringImpl s.val = some nm) ∧
    severities.length = 9 := by
  decide

/-- Witness for the amended C9 theorem at concrete inputs. -/
theorem string_injective_exhaustive_0_8_witness :
    ∃ s : Fin 9, stringImpl s.val = some "INFO" :=
  string_injective_exhaustive_0_8.2.2.1 "INFO" (by decide)

/-- The padded hex rendering of an identifier is never the empty string
(its width is at least the pad width). -/
theorem hexPadded_ne_empty (w n : Nat) (hw : w ≠ 0) : hexPadded w n ≠ "" := by
  intro hEq
  have hd : (List.replicate (w - (natHexChars n).length) '0' ++ natHexChars n) = [] :=
    congrArg String.data hEq
  rcases List.append_eq_nil.mp hd with ⟨h1, h2⟩
  have hlen : (natHexChars n).length = 0 := by rw [h2]; rfl
  have hz : w - (natHexChars n).length = 0 := by
    simpa using congrArg List.length h1
  omega

/-- The rendered trace resource name is never the empty string. -/
theorem traceResource_ne_empty (p h : String) :
    ("projects/" ++ p ++ "/traces/" ++ h) ≠ "" := by
  intro hEq
  have hlen := congrArg String.length hEq
  rw [String.length_append, String.length_append, String.length_append] at hlen
  have ha : "projects/".length = 9 := rfl
  have hb : "/traces/".length = 8 := rfl
  have hc : ("" : String).length = 0 := rfl
  omega

set_option maxRecDepth 8192 in
/-- C3: serializing the severity-INFO entry with message `hoge` and no
optional field yields exactly the expected bytes; in general an entry with
no optional field serializes to just the severity and message fields in
that order; and the full fixture shows the field order severity, trace,
spanId, sourceLocation, message. -/
theorem serialize_entry_bytes :
    encodeEntry
        { severity := "INFO", trace := "", spanID := "", sourceLocation := none,
          message := "hoge" } =
      "\x7b\"severity\":\"INFO\",\"message\":\"hoge\"\x7d\n" ∧
    (∀ sev msg : String,
      marshalEntry
          { severity := sev, trace := "", spanID := "", sourceLocation := none,
            message := msg } =
        "\x7b\"severity\":" ++ quoteGo sev ++ ",\"message\":" ++ quoteGo msg ++ "\x7d") ∧
    encodeEntry
        { severity := "INFO", trace := "trace", spanID := "span-id",
          sourceLocation := some { file := "log_test.go", line := 65, function := "main.TestLog" },
          message := "fuga" } =
      "\x7b\"severity\":\"INFO\",\"logging.googleapis.com/trace\":\"trace\",\"logging.googleapis.com/spanId\":\"span-id\",\"logging.googleapis.com/sourceLocation\":\x7b\"file\":\"log_test.go\",\"line\":65,\"function\":\"main.TestLog\"\x7d,\"message\":\"fuga\"\x7d\n" := by
  refine ⟨by decide, fun sev msg => ?_, by decide⟩
  simp only [marshalEntry, jsonObj, commaSep, List.map, quoteGo, String.append_assoc]
  rfl

/-- C4: the entry built by `logWithSpan` carries the trace and spanId
fields (both non-empty, hence emitted) exactly when the span is recording
and its context has a trace id and a span id; when present the trace field
is the `projects/{id}/traces/{hex}` resource name and the spanId field the
span id hex; when any sub-condition fails both fields are empty, hence
omitted. -/
theorem span_fields_iff_recording_and_ids (c : Cfg) (s : Severity) (span : Span)
    (loc : Option SourceLocation) (msg : String) :
    (((logWithSpanEntry c s span loc msg).trace ≠ "" ∧
      (logWithSpanEntry c s span loc msg).spanID ≠ "") ↔
     (span.recording = true ∧ span.ctx.hasTraceID = true ∧ span.ctx.hasSpanID = true)) ∧
    ((span.recording && span.ctx.hasTraceID && span.ctx.hasSpanID) = true →
      (logWithSpanEntry c s span loc msg).trace =
        "projects/" ++ c.projectID ++ "/traces/" ++ traceIDString span.ctx.traceID ∧
      (logWithSpanEntry c s span loc msg).spanID = spanIDString span.ctx.spanID) ∧
    ((span.recording && span.ctx.hasTraceID && span.ctx.hasSpanID) = false →
      (logWithSpanEntry c s span loc msg).trace = "" ∧
      (logWithSpanEntry c s span loc msg).spanID = "") := by
  by_cases hcond : (span.recording && span.ctx.hasTraceID && span.ctx.hasSpanID) = true
  · obtain ⟨⟨hr, ht⟩, hs⟩ := by simpa [Bool.and_eq_true] using hcond
    refine ⟨?_, fun _ => ?_, fun hfalse => by simp [hcond] at hfalse⟩
    · simp [logWithSpanEntry, hcond, hr, ht, hs, traceResource_ne_empty,
        hexPadded_ne_empty, spanIDString]
    · simp [logWithSpanEntry, hcond]
  · have hfalse : (span.recording && span.ctx.hasTraceID && span.ctx.hasSpanID) = false :=
      Bool.eq_false_iff.mpr hcond
    refine ⟨?_, fun htrue => absurd htrue hcond, fun _ => by simp [logWithSpanEntry, hfalse]⟩
    simp only [logWithSpanEntry, hfalse, Bool.false_eq_true, if_false]
    simp only [ne_eq, not_true_eq_false, false_and, false_iff]
    intro hcontra
    rcases hcontra with ⟨hr, ht, hs⟩
    simp [hr, ht, hs] at hfalse

/-- Witness for C4 at a concrete recording span with both identifiers. -/
theorem span_fields_iff_recording_and_ids_witness :
    (logWithSpanEntry { state := 1, projectID := "local", severity := 1 } SeverityInfo
        { recording := true, ctx := { traceID := 255, spanID := 10 } } none "m").trace =
      "projects/" ++ "local" ++ "/traces/" ++ traceIDString 255 ∧
    (logWithSpanEntry { state := 1, projectID := "local", severity := 1 } SeverityInfo
        { recording := true, ctx := { traceID := 255, spanID := 10 } } none "m").spanID =
      spanIDString 10 :=
  (span_fields_iff_recording_and_ids { state := 1, projectID := "local", severity := 1 }
    SeverityInfo { recording := true, ctx := { traceID := 255, spanID := 10 } } none "m").2.1
    (by decide)

/-- C10: before `Setup` runs, the threshold is `SeverityDebug` and the
reporting id is empty, so `DEBUG` and above are enabled while a
`DEFAULT`-severity check is disabled, and a span-variant call in that state
renders its trace resource name with an empty project segment. -/
theorem pre_setup_defaults :
    initialConfig.severity = SeverityDebug ∧
    initialConfig.projectID = "" ∧
    initialConfig.state = stateUninitialized ∧
    (∀ s : Fin 9, Enabled initialConfig s.val = decide (s.val ≥ SeverityDebug)) ∧
    Enabled initialConfig SeverityDefault = false ∧
    (logWithSpanEntry initialConfig SeverityInfo
        { recording := true, ctx := { traceID := 1, spanID := 74 } } none "m").trace =
      "projects//traces/00000000000000000000000000000001" ∧
    (logWithSpanEntry initialConfig SeverityInfo
        { recording := true, ctx := { traceID := 1, spanID := 74 } } none "m").spanID =
      "000000000000004a" := by
  decide

/-- C6: a logging call at a level below the current threshold returns the
success result and passes nothing to the sink, for each of the fifteen
entry points (plain, with-span, with-context, and the report variants). -/
theorem disabled_call_returns_ok_and_writes_nothing (c : Cfg) (w : GoWriter) (span : Span)
    (ctx : Context) (loc : Option SourceLocation) (msg stack : String) :
    (Enabled c SeverityDebug = false →
      Debug c w loc msg = (.ok (), []) ∧
      DebugWithSpan c w span loc msg = (.ok (), []) ∧
      DebugWithCtx c w ctx loc msg = (.ok (), [])) ∧
    (Enabled c SeverityInfo = false →
      Info c w loc msg = (.ok (), []) ∧
      InfoWithSpan c w span loc msg = (.ok (), []) ∧
      InfoWithCtx c w ctx loc msg = (.ok (), [])) ∧
    (Enabled c SeverityWarning = false →
      Warn c w loc msg = (.ok (), []) ∧
      WarnWithSpan c w span loc msg = (.ok (), []) ∧
      WarnWithCtx c w ctx loc msg = (.ok (), [])) ∧
    (Enabled c SeverityError = false →
      Error c w loc msg = (.ok (), []) ∧
      ReportError c w loc msg stack = (.ok (), []) ∧
      ErrorWithSpan c w span loc msg = (.ok (), []) ∧
      ReportErrorWithSpan c w span loc msg stack = (.ok (), []) ∧
      ErrorWithCtx c w ctx loc msg = (.ok (), []) ∧
      ReportErrorWithCtx c w ctx loc msg stack = (.ok (), [])) := by
  refine ⟨fun h => ?_, fun h => ?_, fun h => ?_, fun h => ?_⟩ <;>
    simp [Debug, DebugWithSpan, DebugWithCtx, Info, InfoWithSpan, InfoWithCtx,
      Warn, WarnWithSpan, WarnWithCtx, Error, ReportError, ErrorWithSpan,
      ReportErrorWithSpan, ErrorWithCtx, ReportErrorWithCtx, h]

/-- Witness for C6: with the threshold at `EMERGENCY`, the lower-level
calls return success and record zero sink invocations. -/
theorem disabled_call_returns_ok_and_writes_nothing_witness :
    Enabled { state := 1, projectID := "p", severity := SeverityEmergency } SeverityDebug =
      false ∧
    Debug { state := 1, projectID := "p", severity := SeverityEmergency } okWriter none "m" =
      (.ok (), []) ∧
    DebugWithCtx { state := 1, projectID := "p", severity := SeverityEmergency } okWriter
      { span := none } none "m" = (.ok (), []) ∧
    ReportError { state := 1, projectID := "p", severity := SeverityEmergency } okWriter
      none "m" "stk" = (.ok (), []) :=
  have h := disabled_call_returns_ok_and_writes_nothing
    { state := 1, projectID := "p", severity := SeverityEmergency } okWriter noopSpan
    { span := none } none "m" "stk"
  ⟨rfl, (h.1 rfl).1, (h.1 rfl).2.2, (h.2.2.2 rfl).2.1⟩

/-- C7: at an enabled level, the result of the logging call is exactly the
result the sink returned for the encoded entry, for each of the fifteen
entry points: a sink failure is propagated to the caller, a sink success
yields success. -/
theorem enabled_call_returns_sink_result (c : Cfg) (w : GoWriter) (span : Span)
    (ctx : Context) (loc : Option SourceLocation) (msg stack : String) :
    (Enabled c SeverityDebug = true →
      (Debug c w loc msg).1 =
        w (encodeEntry (plainEntry SeverityDebug loc msg)) ∧
      (DebugWithSpan c w span loc msg).1 =
        w (encodeEntry (logWithSpanEntry c SeverityDebug span loc msg)) ∧
      (DebugWithCtx c w ctx loc msg).1 =
        w (encodeEntry (logWithSpanEntry c SeverityDebug (spanFromContext ctx) loc msg))) ∧
    (Enabled c SeverityInfo = true →
      (Info c w loc msg).1 =
        w (encodeEntry (plainEntry SeverityInfo loc msg)) ∧
      (InfoWithSpan c w span loc msg).1 =
        w (encodeEntry (logWithSpanEntry c SeverityInfo span loc msg)) ∧
      (InfoWithCtx c w ctx loc msg).1 =
        w (encodeEntry (logWithSpanEntry c SeverityInfo (spanFromContext ctx) loc msg))) ∧
    (Enabled c SeverityWarning = true →
      (Warn c w loc msg).1 =
        w (encodeEntry (plainEntry SeverityWarning loc msg)) ∧
      (WarnWithSpan c w span loc msg).1 =
        w (encodeEntry (logWithSpanEntry c SeverityWarning span loc msg)) ∧
      (WarnWithCtx c w ctx loc msg).1 =
        w (encodeEntry (logWithSpanEntry c SeverityWarning (spanFromContext ctx) loc msg))) ∧
    (Enabled c SeverityError = true →
      (Error c w loc msg).1 =
        w (encodeEntry (plainEntry SeverityError loc msg)) ∧
      (ReportError c w loc msg stack).1 =
        w (encodeEntry (plainEntry SeverityError loc (msg ++ "\n" ++ stack))) ∧
      (ErrorWithSpan c w span loc msg).1 =
        w (encodeEntry (logWithSpanEntry c SeverityError span loc msg)) ∧
      (ReportErrorWithSpan c w span loc msg stack).1 =
        w (encodeEntry (logWithSpanEntry c SeverityError span loc (msg ++ "\n" ++ stack))) ∧
      (ErrorWithCtx c w ctx loc msg).1 =
        w (encodeEntry (logWithSpanEntry c SeverityError (spanFromContext ctx) loc msg)) ∧
      (ReportErrorWithCtx c w ctx loc msg stack).1 =
        w (encodeEntry
            (logWithSpanEntry c SeverityError (spanFromContext ctx) loc
              (msg ++ "\n" ++ stack)))) := by
  refine ⟨fun h => ?_, fun h => ?_, fun h => ?_, fun h => ?_⟩ <;>
    simp [Debug, DebugWithSpan, DebugWithCtx, Info, InfoWithSpan, InfoWithCtx,
      Warn, WarnWithSpan, WarnWithCtx, Error, ReportError, ErrorWithSpan,
      ReportErrorWithSpan, ErrorWithCtx, ReportErrorWithCtx, log, logWithSpan, write, h]

/-- Witness for C7: before setup (threshold `DEBUG`), an `Error` call
against the failing sink returns the sink error to the caller, and against
the accepting sink returns success. -/
theorem enabled_call_returns_sink_result_witness :
    Enabled initialConfig SeverityError = true ∧
    (Error initialConfig failWriter none "m").1 = .error "sink closed" ∧
    (Error initialConfig okWriter none "m").1 = .ok () :=
  ⟨rfl,
   ((enabled_call_returns_sink_result initialConfig failWriter noopSpan { span := none }
      none "m" "stk").2.2.2 rfl).1.trans rfl,
   ((enabled_call_returns_sink_result initialConfig okWriter noopSpan { span := none }
      none "m" "stk").2.2.2 rfl).1.trans rfl⟩

/-! ### No embedded newline in a marshalled entry (C8) -/

theorem noNL_append {s t : String} (hs : noNL s) (ht : noNL t) : noNL (s ++ t) := by
  intro c hc
  rw [String.data_append] at hc
  rcases List.mem_append.mp hc with h | h
  · exact hs c h
  · exact ht c h

theorem hexChar_ne_nl (k : Nat) : hexChar k ≠ '\n' := by
  have hall : ∀ c ∈ hexDigits, c ≠ '\n' := by decide
  unfold hexChar
  rw [List.getD_eq_getElem?_getD]
  cases h : hexDigits[k]? with
  | none => simp
  | some c => simpa using hall c (List.getElem?_mem h)

theorem natStrAux_ne_nl (fuel : Nat) :
    ∀ (n : Nat) (acc : List Char), (∀ c ∈ acc, c ≠ '\n') →
      ∀ c ∈ natStrAux fuel n acc, c ≠ '\n' := by
  induction fuel with
  | zero => intro n acc hacc c hc; exact hacc c hc
  | succ fuel ih =>
    intro n acc hacc c hc
    rw [natStrAux] at hc
    split at hc
    · exact hacc c hc
    · refine ih (n / 10) (hexChar (n % 10) :: acc) ?_ c hc
      intro d hd
      rcases List.mem_cons.mp hd with h | h
      · exact h ▸ hexChar_ne_nl (n % 10)
      · exact hacc d h

theorem noNL_natStr (n : Nat) : noNL (natStr n) := by
  unfold natStr
  split
  · decide
  · exact natStrAux_ne_nl n n [] (by intro c hc; cases hc)

theorem noNL_intStr (i : Int) : noNL (intStr i) := by
  unfold intStr
  split
  · exact noNL_append (by decide) (noNL_natStr _)
  · exact noNL_natStr _

set_option maxHeartbeats 1000000 in
theorem noNL_escapeChar (ch : Char) : noNL (escapeChar ch) := by
  unfold escapeChar
  split
  · decide
  split
  · decide
  split
  · decide
  split
  · decide
  split
  · decide
  split
  · decide
  split
  · decide
  split
  · decide
  split
  · refine noNL_append (by decide) ?_
    intro c hc
    rcases List.mem_cons.mp hc with h | h
    · subst h; exact hexChar_ne_nl _
    · rcases List.mem_cons.mp h with h2 | h2
      · subst h2; exact hexChar_ne_nl _
      · cases h2
  split
  · decide
  split
  · decide
  · rename_i h1 h2 h3 h4 h5 h6 h7 h8 h9 h10 h11
    intro c hc
    rcases List.mem_cons.mp hc with h | h
    · subst h; exact h3
    · cases h

theorem noNL_escapeChars (cs : List Char) : noNL (escapeChars cs) := by
  induction cs with
  | nil => decide
  | cons c cs ih => exact noNL_append (noNL_escapeChar c) ih

theorem noNL_escapeString (s : String) : noNL (escapeString s) := noNL_escapeChars s.data

theorem noNL_quoteGo (s : String) : noNL (quoteGo s) :=
  noNL_append (noNL_append (by decide) (noNL_escapeString s)) (by decide)

theorem noNL_commaSep : ∀ l : List String, (∀ x ∈ l, noNL x) → noNL (commaSep l)
  | [], _ => by decide
  | [x], h => by simpa [commaSep] using h x (by simp)
  | x :: y :: xs, h => by
    show noNL (x ++ "," ++ commaSep (y :: xs))
    refine noNL_append (noNL_append (h x (by simp)) (by decide)) ?_
    exact noNL_commaSep (y :: xs) (fun z hz => h z (List.mem_cons_of_mem x hz))

theorem noNL_jsonObj (fields : List (String × String))
    (h : ∀ f ∈ fields, noNL f.1 ∧ noNL f.2) : noNL (jsonObj fields) := by
  unfold jsonObj
  refine noNL_append (noNL_append (by decide) ?_) (by decide)
  refine noNL_commaSep _ ?_
  intro x hx
  rcases List.mem_map.mp hx with ⟨f, hf, rfl⟩
  exact noNL_append (noNL_append (noNL_append (by decide) (h f hf).1) (by decide)) (h f hf).2

theorem noNL_marshalSourceLocation (l : SourceLocation) :
    noNL (marshalSourceLocation l) := by
  unfold marshalSourceLocation
  refine noNL_jsonObj _ ?_
  intro f hf
  rcases List.mem_append.mp hf with hf1 | hf2
  · rcases List.mem_append.mp hf1 with hf3 | hf4
    · revert hf3
      split
      · intro h3; cases h3
      · intro h3
        rcases List.mem_cons.mp h3 with h | h
        · subst h; exact ⟨by show noNL "file"; decide, noNL_quoteGo _⟩
        · cases h
    · revert hf4
      split
      · intro h4; cases h4
      · intro h4
        rcases List.mem_cons.mp h4 with h | h
        · subst h; exact ⟨by show noNL "line"; decide, noNL_intStr _⟩
        · cases h
  · revert hf2
    split
    · intro h2; cases h2
    · intro h2
      rcases List.mem_cons.mp h2 with h | h
      · subst h; exact ⟨by show noNL "function"; decide, noNL_quoteGo _⟩
      · cases h

theorem noNL_marshalEntry (e : Entry) : noNL (marshalEntry e) := by
  unfold marshalEntry
  refine noNL_jsonObj _ ?_
  intro f hf
  rcases List.mem_append.mp hf with hf1 | hf2
  · rcases List.mem_append.mp hf1 with hf3 | hf4
    · rcases List.mem_append.mp hf3 with hf5 | hf6
      · rcases List.mem_append.mp hf5 with hf7 | hf8
        · rcases List.mem_cons.mp hf7 with h | h
          · subst h; exact ⟨by show noNL "severity"; decide, noNL_quoteGo _⟩
          · cases h
        · revert hf8
          split
          · intro h8; cases h8
          · intro h8
            rcases List.mem_cons.mp h8 with h | h
            · subst h
              exact ⟨by show noNL "logging.googleapis.com/trace"; decide, noNL_quoteGo _⟩
            · cases h
      · revert hf6
        split
        · intro h6; cases h6
        · intro h6
          rcases List.mem_cons.mp h6 with h | h
          · subst h
            exact ⟨by show noNL "logging.googleapis.com/spanId"; decide, noNL_quoteGo _⟩
          · cases h
    · revert hf4
      rcases e.sourceLocation with _ | l
      · intro h4; cases h4
      · intro h4
        rcases List.mem_cons.mp h4 with h | h
        · subst h
          exact ⟨by show noNL "logging.googleapis.com/sourceLocation"; decide,
            noNL_marshalSourceLocation l⟩
        · cases h
  · rcases List.mem_cons.mp hf2 with h | h
    · subst h; exact ⟨by show noNL "message"; decide, noNL_quoteGo _⟩
    · cases h

/-- C8: the serialized form of any entry, whatever the message contains
(in particular the newline-joined message plus stack trace the
`ReportError` family builds), holds exactly one newline byte, the trailing
one: embedded newlines are escaped to the two characters `\n` by the JSON
string escaper. -/
theorem encode_single_trailing_newline (e : Entry) :
    (encodeEntry e).data.count '\n' = 1 ∧
    (encodeEntry e).data.getLast? = some '\n' := by
  have hm : (marshalEntry e).data.count '\n' = 0 :=
    List.count_eq_zero.mpr (fun hmem => noNL_marshalEntry e _ hmem rfl)
  constructor
  · rw [encodeEntry, String.data_append, List.count_append, hm]
    decide
  · rw [encodeEntry, String.data_append]
    have hnl : ("\n" : String).data = ['\n'] := rfl
    rw [hnl]
    simp

end Slog

